import Mathlib

/-!
Shallow embedding of the `hyperatompunk` Hyper terminal plugin.

The embedded code is:
* `src/index.js` (top level): the theme decorator `decorateConfig`.
* `src/src/passes.js`: the pass factory `createPasses` building the two
  custom post-processing passes (CRT/color-separation/flicker and screen
  curvature) from the `postprocessing` library's `Effect` / `EffectPass`
  primitives.
* `src/src/index.js`: the `HyperPostProcessing` React component --
  `_onDecorated`, `_init`, `_setupScene`, `componentWillReceiveProps`,
  `_setUniforms`, `_startAnimationLoop`, `_cancelAnimationLoop`,
  `_onCanvasReplacement`, `_replaceTexture`.

JS objects from the `three` / `postprocessing` libraries are modelled by
records carrying the fields the plugin reads or writes; canvases and DOM
elements are identified by natural numbers; numeric values are rationals.
Exceptions raised by the graphics libraries during construction are an
environment input (`exc : Option String`), since the plugin's own
construction code cannot fail in the embedding.
-/

namespace Hyperatompunk

/-! ## Generic JS association primitives

JS `Map` objects and plain objects are modelled as association lists kept
in insertion order.  `mapGet` is `Map#get` / property read (first match),
`mapSet` is `Map#set` / property write (update the existing entry in
place, otherwise append at the end). -/

def mapGet {κ α : Type} [DecidableEq κ] (m : List (κ × α)) (k : κ) : Option α :=
  match m with
  | [] => none
  | (k₀, v₀) :: rest => if k₀ = k then some v₀ else mapGet rest k

def mapHas {κ α : Type} [DecidableEq κ] (m : List (κ × α)) (k : κ) : Bool :=
  (mapGet m k).isSome

def mapSet {κ α : Type} [DecidableEq κ] (m : List (κ × α)) (k : κ) (v : α) :
    List (κ × α) :=
  match m with
  | [] => [(k, v)]
  | (k₀, v₀) :: rest =>
      if k₀ = k then (k₀, v) :: rest else (k₀, v₀) :: mapSet rest k v

/-- Overwrite the value at an existing key, leaving the list unchanged when
the key is absent (used for mutation of a value already fetched with a
successful `mapGet`). -/
def mapUpdate {κ α : Type} [DecidableEq κ] (m : List (κ × α)) (k : κ) (v : α) :
    List (κ × α) :=
  match m with
  | [] => []
  | (k₀, v₀) :: rest =>
      if k₀ = k then (k₀, v) :: rest else (k₀, v₀) :: mapUpdate rest k v

theorem mapGet_mapSet_self {κ α : Type} [DecidableEq κ]
    (m : List (κ × α)) (k : κ) (v : α) : mapGet (mapSet m k v) k = some v := by
  induction m with
  | nil => simp [mapSet, mapGet]
  | cons hd tl ih =>
      obtain ⟨k₀, v₀⟩ := hd
      by_cases h : k₀ = k <;> simp [mapSet, mapGet, h, ih]

theorem mapGet_mapSet_ne {κ α : Type} [DecidableEq κ]
    (m : List (κ × α)) (k k₂ : κ) (v : α) (hne : k₂ ≠ k) :
    mapGet (mapSet m k v) k₂ = mapGet m k₂ := by
  have hkk : ¬ k = k₂ := fun h => hne h.symm
  induction m with
  | nil => simp [mapSet, mapGet, hkk]
  | cons hd tl ih =>
      obtain ⟨k₀, v₀⟩ := hd
      by_cases h : k₀ = k
      · subst h
        simp [mapSet, mapGet, hkk]
      · simp [mapSet, mapGet, h, ih]

theorem mapGet_mapUpdate_self {κ α : Type} [DecidableEq κ]
    (m : List (κ × α)) (k : κ) (v : α) (hin : (mapGet m k).isSome) :
    mapGet (mapUpdate m k v) k = some v := by
  induction m with
  | nil => simp [mapGet] at hin
  | cons hd tl ih =>
      obtain ⟨k₀, v₀⟩ := hd
      by_cases h : k₀ = k
      · simp [mapUpdate, mapGet, h]
      · simp [mapGet, h] at hin
        simp [mapUpdate, mapGet, h, ih hin]

theorem mapGet_mapUpdate_ne {κ α : Type} [DecidableEq κ]
    (m : List (κ × α)) (k k₂ : κ) (v : α) (hne : k₂ ≠ k) :
    mapGet (mapUpdate m k v) k₂ = mapGet m k₂ := by
  have hkk : ¬ k = k₂ := fun h => hne h.symm
  induction m with
  | nil => simp [mapUpdate]
  | cons hd tl ih =>
      obtain ⟨k₀, v₀⟩ := hd
      by_cases h : k₀ = k
      · subst h
        simp [mapUpdate, mapGet, hkk]
      · simp [mapUpdate, mapGet, h, ih]

theorem mapGet_mapUpdate_isSome {κ α : Type} [DecidableEq κ]
    (m : List (κ × α)) (k k₂ : κ) (v : α) :
    (mapGet (mapUpdate m k v) k₂).isSome = (mapGet m k₂).isSome := by
  by_cases hne : k₂ = k
  · subst hne
    by_cases hin : (mapGet m k₂).isSome
    · simp [mapGet_mapUpdate_self m k₂ v hin, hin]
    · induction m with
      | nil => simp [mapUpdate]
      | cons hd tl ih =>
          obtain ⟨k₀, v₀⟩ := hd
          by_cases h : k₀ = k₂
          · simp [mapGet, h] at hin
          · simp only [mapGet, h, if_false, if_neg h] at hin
            simp [mapUpdate, mapGet, h, ih hin]
  · simp [mapGet_mapUpdate_ne m k k₂ v hne]

/-! ## `three` / `postprocessing` object model -/

/-- `THREE.CanvasTexture` as used by the plugin: the source canvas (or
`undefined`), whether `minFilter` was set to `LinearFilter`, and whether
`dispose()` has been called. `none` as source models the JS `undefined`
obtained from an out-of-range `addedNodes[i]`. -/
structure Texture where
  src : Option Nat
  minFilterLinear : Bool
  disposed : Bool
  deriving Repr, DecidableEq

/-- `new CanvasTexture(canvas)` followed by `texture.minFilter = LinearFilter`,
the only way the plugin builds textures. -/
def canvasTexture (c : Option Nat) : Texture :=
  { src := c, minFilterLinear := true, disposed := false }

/-- `THREE.MeshBasicMaterial` with the fields the plugin sets. -/
structure MeshBasicMaterial where
  color : Nat
  map : Texture
  transparent : Bool
  deriving Repr, DecidableEq

/-- `postprocessing` blend functions (only `NORMAL` is used). -/
inductive BlendFunction where
  | NORMAL
  deriving Repr, DecidableEq

/-- A `postprocessing` `Effect`: name, blend function and uniform map
(uniform name to initial numeric value). -/
structure Effect where
  name : String
  blendFunction : BlendFunction
  uniforms : List (String × ℚ)
  deriving Repr, DecidableEq

/-- The concrete class of a pass object, needed for the `instanceof Pass` /
`instanceof EffectPass` checks in `_init`.  `customEffectPass` is the
`CustomEffectPass extends EffectPass` subclass defined in `passes.js`. -/
inductive PassClass where
  | renderPass
  | effectPass
  | customEffectPass
  deriving Repr, DecidableEq

/-- `pass instanceof Pass`: every pass class used here extends `Pass`. -/
def isPassInstance : PassClass → Bool
  | _ => true

/-- `pass instanceof EffectPass`: true for `EffectPass` and its subclass
`CustomEffectPass`, false for `RenderPass`. -/
def isEffectPassInstance : PassClass → Bool
  | PassClass.renderPass => false
  | PassClass.effectPass => true
  | PassClass.customEffectPass => true

/-- Value of a fullscreen-material uniform (`_setUniforms` writes a number
for `aspect` and a `THREE.Vector2` for `resolution`). -/
inductive UVal where
  | flt (q : ℚ)
  | vec2 (x y : ℚ)
  deriving Repr, DecidableEq

/-- A `postprocessing` pass as the plugin sees it: its class, the effects
it wraps (for `EffectPass`es), the uniforms of its fullscreen material
(read by `_setUniforms` on non-`EffectPass` shader passes), and the
`renderToScreen` flag (`false` on construction in the library). -/
structure Pass where
  cls : PassClass
  effects : List Effect
  uniforms : List (String × UVal)
  renderToScreen : Bool
  deriving Repr, DecidableEq

/-- The identity of a pass apart from its mutable `renderToScreen` flag. -/
def Pass.core (p : Pass) : PassClass × List Effect × List (String × UVal) :=
  (p.cls, p.effects, p.uniforms)

/-! ## `src/src/passes.js` -/

/-- Initial value of the `separation` uniform of the CRT effect
(`new Uniform(0.5)` in `passes.js`). -/
def crtSeparationInit : ℚ := 1 / 2

/-- `new Effect('crtEffect', crtFragmentShader, { blendFunction: NORMAL,
uniforms: new Map([['separation', new Uniform(0.5)]]) })`. -/
def crtEffect : Effect :=
  { name := "crtEffect"
    blendFunction := BlendFunction.NORMAL
    uniforms := [("separation", crtSeparationInit)] }

/-- `new Effect('curvedFragmentEffect', curvedFragmentShader,
{ blendFunction: NORMAL })` (no uniforms option). -/
def curvedFragmentEffect : Effect :=
  { name := "curvedFragmentEffect"
    blendFunction := BlendFunction.NORMAL
    uniforms := [] }

/-- `new CustomEffectPass(null, crtEffect)`. -/
def crtPass : Pass :=
  { cls := PassClass.customEffectPass
    effects := [crtEffect]
    uniforms := []
    renderToScreen := false }

/-- `new EffectPass(null, new Effect('curvedFragmentEffect', ...))`. -/
def curvedPass : Pass :=
  { cls := PassClass.effectPass
    effects := [curvedFragmentEffect]
    uniforms := []
    renderToScreen := false }

/-- A console entry: `console.error` / `console.warn` / `console.log`. -/
inductive ConsoleEntry where
  | error (msg : String)
  | warn (msg : String)
  | log (msg : String)
  deriving Repr, DecidableEq

/-- The default export of `passes.js`.  The whole body is wrapped in
`try { ... return [...] } catch (e) { console.error(e) }`; `exc` is the
exception (if any) raised by the graphics libraries while the shaders and
effects are constructed.  On an exception the function logs it and falls
off the end, returning `undefined` (`none`); otherwise it returns the two
passes. -/
def createPasses (exc : Option String) : Option (List Pass) × List ConsoleEntry :=
  match exc with
  | some msg => (none, [ConsoleEntry.error msg])
  | none => (some [crtPass, curvedPass], [])

/-- One step of `CustomEffectPass.render` on the `separation` uniform:
`Math.min(1.0, Math.max(0.0, prev + (Math.random() - 0.5)/5))`. -/
def sepStep (prev r : ℚ) : ℚ :=
  min 1 (max 0 (prev + (r - 1 / 2) / 5))

/-- Value of the `separation` uniform after a sequence of renders whose
`Math.random()` draws are `rs`, starting from the initial `0.5`. -/
def sepValue (rs : List ℚ) : ℚ :=
  rs.foldl sepStep crtSeparationInit

theorem sepStep_nonneg (prev r : ℚ) : 0 ≤ sepStep prev r := by
  unfold sepStep
  have h : (0 : ℚ) ≤ max 0 (prev + (r - 1 / 2) / 5) := le_max_left _ _
  exact le_min (by norm_num) h

theorem sepStep_le_one (prev r : ℚ) : sepStep prev r ≤ 1 :=
  min_le_left _ _

theorem sepFold_bounds (rs : List ℚ) (x : ℚ) (h₀ : 0 ≤ x) (h₁ : x ≤ 1) :
    0 ≤ rs.foldl sepStep x ∧ rs.foldl sepStep x ≤ 1 := by
  induction rs generalizing x with
  | nil => exact ⟨h₀, h₁⟩
  | cons r rest ih =>
      simpa using ih (sepStep x r) (sepStep_nonneg x r) (sepStep_le_one x r)

/-! ## `src/src/index.js`: scene setup (`_setupScene`) -/

/-- A `THREE.Mesh` made of a `PlaneGeometry(width, height)` and a
`MeshBasicMaterial`. -/
structure Mesh where
  geometryWidth : ℚ
  geometryHeight : ℚ
  material : MeshBasicMaterial
  deriving Repr, DecidableEq

/-- A `THREE.Scene`: the meshes added with `scene.add`. -/
structure SceneT where
  children : List Mesh
  deriving Repr, DecidableEq

/-- The `OrthographicCamera(-w, w, h, -h, 1, 1000)` with `position.z = 1`. -/
structure CameraT where
  left : ℚ
  right : ℚ
  top : ℚ
  bottom : ℚ
  near : ℚ
  far : ℚ
  posZ : ℚ
  deriving Repr, DecidableEq

/-- The `EffectComposer`: its current size and the passes added with
`addPass` (in order). -/
structure Composer where
  width : ℚ
  height : ℚ
  passes : List Pass
  deriving Repr, DecidableEq

/-- `_xTermLayerMap`: a JS `Map` from render-layer canvas to the material
built for it. -/
abbrev LayerMap := List (Nat × MeshBasicMaterial)

/-- The `MeshBasicMaterial({ color: 0xFFFFFF, map: texture,
transparent: true })` built in `_setupScene` for one render-layer canvas. -/
def materialFor (c : Nat) : MeshBasicMaterial :=
  { color := 0xFFFFFF, map := canvasTexture (some c), transparent := true }

/-- The mesh built in `_setupScene` for one render-layer canvas. -/
def meshFor (w h : ℚ) (c : Nat) : Mesh :=
  { geometryWidth := w, geometryHeight := h, material := materialFor c }

/-- Everything `_setupScene` creates. -/
structure SetupResult where
  canvasCreated : Bool
  scene : SceneT
  camera : CameraT
  composer : Composer
  layerMap : LayerMap
  deriving Repr, DecidableEq

/-- `_setupScene(renderLayers)`: reads the terminal element's bounding
width/height, creates the canvas, scene, renderer, camera and composer,
then for each render-layer canvas creates a texture and mesh, adds the
mesh to the scene and sets the canvas-to-material entry in
`_xTermLayerMap` (whose prior contents are `m₀`). -/
def setupScene (m₀ : LayerMap) (renderLayerList : List Nat) (w h : ℚ) : SetupResult :=
  { canvasCreated := true
    scene := { children := renderLayerList.map (meshFor w h) }
    camera :=
      { left := -(w / 2), right := w / 2, top := h / 2, bottom := -(h / 2)
        near := 1, far := 1000, posZ := 1 }
    composer := { width := w, height := h, passes := [] }
    layerMap := renderLayerList.foldl (fun m c => mapSet m c (materialFor c)) m₀ }

/-! ## `src/src/index.js`: component state and `_init` -/

/-- The instance state of the `HyperPostProcessing` component.  Object
references held by the component are modelled by `Option` ids or by
presence flags; `loopRunning` is whether an animation-frame callback is
currently scheduled (`_animationId` live). -/
structure Comp where
  isInit : Bool
  term : Option Nat
  xTermScreen : Option Nat
  container : Option Nat
  canvasCreated : Bool
  xTermLayerMap : LayerMap
  clock : Option Bool
  scene : Option SceneT
  rendererCreated : Bool
  camera : Option CameraT
  composer : Option Composer
  passes : List Pass
  shaderPasses : List Pass
  layerObserver : Bool
  resizeListeners : Nat
  propsIsTermActive : Bool
  loopRunning : Bool
  hasOnDecoratedProp : Bool
  deriving Repr, DecidableEq

/-- The state set up by the component constructor. -/
def initialComp (active hasOnDec : Bool) : Comp :=
  { isInit := false, term := none, xTermScreen := none, container := none
    canvasCreated := false, xTermLayerMap := [], clock := none, scene := none
    rendererCreated := false, camera := none, composer := none, passes := []
    shaderPasses := [], layerObserver := false, resizeListeners := 0
    propsIsTermActive := active, loopRunning := false
    hasOnDecoratedProp := hasOnDec }

/-- The host-side data `_init` reads from the decorated term: the
container element, the `.xterm .xterm-screen` element, the render-layer
canvases found under it, and the bounding rect of the terminal element. -/
structure TermEnv where
  containerId : Nat
  xTermScreenId : Nat
  renderLayers : List Nat
  boundWidth : ℚ
  boundHeight : ℚ

/-- `new RenderPass(this._scene, this._camera)`. -/
def renderPassNew : Pass :=
  { cls := PassClass.renderPass, effects := [], uniforms := []
    renderToScreen := false }

/-- `this.passes[this.passes.length - 1].renderToScreen = true`. -/
def setLastRenderToScreen : List Pass → List Pass
  | [] => []
  | [p] => [{ p with renderToScreen := true }]
  | p :: q :: rest => p :: setLastRenderToScreen (q :: rest)

/-- The pass chain assembled in `_init`:
`this.passes = [new RenderPass(...), ...passes]` followed by setting
`renderToScreen` on the last element. -/
def initPassChain (created : List Pass) : List Pass :=
  setLastRenderToScreen (renderPassNew :: created)

/-- The filter computing `this._shaderPasses` from `this.passes.slice(1)`:
`(pass instanceof Pass) && !(pass instanceof EffectPass)`. -/
def shaderPassFilter (p : Pass) : Bool :=
  isPassInstance p.cls && !(isEffectPassInstance p.cls)

/-- `_init()`, given the result of `createPasses()`.  When the result is
`undefined` or empty it returns at once leaving the state untouched;
otherwise it sets `_isInit`, resolves the container and xterm screen,
hides the layers, runs `_setupScene`, creates the clock, assembles the
pass chain, adds every pass to the composer, computes `_shaderPasses`,
attaches the `MutationObserver` and registers the two `resize`
listeners. -/
def initFn (env : TermEnv) (s : Comp) (passesResult : Option (List Pass)) : Comp :=
  match passesResult with
  | none => s
  | some created =>
      if created.length = 0 then s
      else
        let setup := setupScene s.xTermLayerMap env.renderLayers
          env.boundWidth env.boundHeight
        let chain := initPassChain created
        { s with
          isInit := true
          container := some env.containerId
          xTermScreen := some env.xTermScreenId
          canvasCreated := setup.canvasCreated
          xTermLayerMap := setup.layerMap
          scene := some setup.scene
          rendererCreated := true
          camera := some setup.camera
          composer := some { setup.composer with passes := chain }
          clock := some false
          passes := chain
          shaderPasses := (chain.drop 1).filter shaderPassFilter
          layerObserver := true
          resizeListeners := s.resizeListeners + 2 }

/-- `_onDecorated(term)`: forwards the call to the chained
`props.onDecorated` when present, then returns early on a null term or
when already initialized, else stores the term and runs `_init`.  The
second component lists the term values forwarded to the chained prop. -/
def onDecorated (env : TermEnv) (exc : Option String) (s : Comp)
    (term : Option Nat) : Comp × List (Option Nat) :=
  let forwarded := if s.hasOnDecoratedProp then [term] else []
  match term with
  | none => (s, forwarded)
  | some t =>
      if s.isInit then (s, forwarded)
      else (initFn env { s with term := some t } (createPasses exc).1, forwarded)

/-! ## `src/src/index.js`: animation loop and props updates -/

/-- `_cancelAnimationLoop()`: `window.cancelAnimationFrame(this._animationId)`. -/
def cancelAnimationLoop (s : Comp) : Comp :=
  { s with loopRunning := false }

/-- `_startAnimationLoop()`: schedules the self-rescheduling
`requestAnimationFrame` render callback. -/
def startAnimationLoop (s : Comp) : Comp :=
  { s with loopRunning := true }

/-- `componentWillReceiveProps(props)` together with React committing the
new props afterwards: before initialization it returns at once; otherwise
an active-to-inactive transition cancels the loop and an
inactive-to-active transition starts it. -/
def componentWillReceiveProps (s : Comp) (newIsTermActive : Bool) : Comp :=
  if !s.isInit then
    { s with propsIsTermActive := newIsTermActive }
  else if s.propsIsTermActive && !newIsTermActive then
    let s₁ := cancelAnimationLoop s
    { s₁ with propsIsTermActive := newIsTermActive }
  else if !s.propsIsTermActive && newIsTermActive then
    let s₁ := startAnimationLoop s
    { s₁ with propsIsTermActive := newIsTermActive }
  else
    { s with propsIsTermActive := newIsTermActive }

/-! ## `src/src/index.js`: resize handling (`_setUniforms`) -/

/-- The body of the inner loop of `_setUniforms`: write the uniform only
when the pass's fullscreen material declares it
(`material.uniforms[uniformKey] !== undefined`). -/
def setUniform (p : Pass) (k : String) (v : UVal) : Pass :=
  if mapHas p.uniforms k then { p with uniforms := mapUpdate p.uniforms k v }
  else p

/-- `_setUniforms(obj)` over the `_shaderPasses` list: for each key of
`obj`, set it on every shader pass declaring it. -/
def setUniformsFn (shaderPassList : List Pass) (obj : List (String × UVal)) :
    List Pass :=
  obj.foldl (fun ps kv => ps.map (fun p => setUniform p kv.1 kv.2)) shaderPassList

/-- The `resize` listener registered in `_init`: reads the bounding rect,
calls `this._composer.setSize(width, height)` and
`this._setUniforms({ aspect: width/height, resolution: new Vector2(width, height) })`. -/
def onResize (composer : Composer) (shaderPassList : List Pass) (w h : ℚ) :
    Composer × List Pass :=
  ({ composer with width := w, height := h },
   setUniformsFn shaderPassList
     [("aspect", UVal.flt (w / h)), ("resolution", UVal.vec2 w h)])

/-! ## `src/src/index.js`: canvas replacement -/

/-- One `MutationRecord` delivered for `.xterm-screen`'s child list. -/
structure MutationRecord where
  removedNodes : List Nat
  addedNodes : List Nat

/-- `_replaceTexture(removedCanvas, addedCanvas)`: looks the removed
canvas up in `_xTermLayerMap`, disposes the material's old texture and
replaces it with a fresh `CanvasTexture` of the added canvas.  When the
removed canvas has no map entry, the JS code throws a `TypeError`
(`undefined.map`), modelled as `none`.  On success it returns the updated
map and the disposed old texture. -/
def replaceTexture (m : LayerMap) (removedCanvas : Nat)
    (addedCanvas : Option Nat) : Option (LayerMap × Texture) :=
  match mapGet m removedCanvas with
  | none => none
  | some affectedMaterial =>
      let newTexture := canvasTexture addedCanvas
      some (mapUpdate m removedCanvas { affectedMaterial with map := newTexture },
            { affectedMaterial.map with disposed := true })

/-- The loop of `_onCanvasReplacement`: replace textures pair by pair,
stopping with the state reached so far when a replacement throws.  The
`Bool` records whether a `TypeError` escaped the handler. -/
def replaceAll (m : LayerMap) : List (Nat × Option Nat) →
    LayerMap × List Texture × Bool
  | [] => (m, [], false)
  | (r, a) :: rest =>
      match replaceTexture m r a with
      | none => (m, [], true)
      | some (m₁, tex) =>
          let result := replaceAll m₁ rest
          (result.1, tex :: result.2.1, result.2.2)

/-- The index pairing done by the loop of `_onCanvasReplacement`: for each
`i` below `removedNodes.length`, the pair `(removedNodes[i], addedNodes[i])`
(the latter `undefined` when out of range). -/
def pairedNodes (e : MutationRecord) : List (Nat × Option Nat) :=
  e.removedNodes.enum.map (fun p => (p.2, e.addedNodes[p.1]?))

/-- `_onCanvasReplacement([e])`: destructures the first mutation record of
the delivered batch (throwing on an empty batch) and runs the replacement
loop over its removed/added node pairs. -/
def onCanvasReplacement (m : LayerMap) (records : List MutationRecord) :
    LayerMap × List Texture × Bool :=
  match records with
  | [] => (m, [], true)
  | e :: _ => replaceAll m (pairedNodes e)

/-! ## `src/index.js` (top level): the theme decorator -/

/-- `Object.assign(target, source)` on string-valued JS objects: each own
key of `source` is written into `target` in order. -/
def objAssign (target source : List (String × String)) : List (String × String) :=
  source.foldl (fun t kv => mapSet t kv.1 kv.2) target

/-- The four color overrides applied by the theme
(`BRIGHT_GREEN`, `DARK_GREEN`, and the cursor color). -/
def themeColors : List (String × String) :=
  [("foregroundColor", "#28FC91"), ("backgroundColor", "#0F2218"),
   ("borderColor", "#28FC91"), ("cursorColor", "#40FFFF")]

/-- `exports.decorateConfig` of the top-level `index.js`:
`Object.assign({}, config, { foregroundColor: ..., backgroundColor: ...,
borderColor: ..., cursorColor: ... })` -- the result is a fresh object and
the input `config` is left untouched. -/
def decorateConfig (config : List (String × String)) : List (String × String) :=
  objAssign (objAssign [] config) themeColors

/-! ## Helper lemmas -/

theorem mapGet_eq_none_of_not_mem {κ α : Type} [DecidableEq κ]
    (m : List (κ × α)) (k : κ) (h : k ∉ m.map Prod.fst) : mapGet m k = none := by
  induction m with
  | nil => rfl
  | cons kv rest ih =>
      obtain ⟨k₀, v₀⟩ := kv
      simp only [List.map_cons, List.mem_cons] at h
      push_neg at h
      have hk : ¬ k₀ = k := fun hh => h.1 hh.symm
      simp [mapGet, hk, ih h.2]

theorem mapGet_foldl_mapSet_not_mem {κ α : Type} [DecidableEq κ]
    (f : κ → α) (l : List κ) (m₀ : List (κ × α)) (c : κ) (hc : c ∉ l) :
    mapGet (l.foldl (fun m x => mapSet m x (f x)) m₀) c = mapGet m₀ c := by
  induction l generalizing m₀ with
  | nil => rfl
  | cons x rest ih =>
      simp only [List.mem_cons] at hc
      push_neg at hc
      rw [List.foldl_cons, ih _ hc.2, mapGet_mapSet_ne _ _ _ _ hc.1]

theorem mapGet_foldl_mapSet_mem {κ α : Type} [DecidableEq κ]
    (f : κ → α) (l : List κ) (m₀ : List (κ × α)) (c : κ) (hc : c ∈ l) :
    mapGet (l.foldl (fun m x => mapSet m x (f x)) m₀) c = some (f c) := by
  induction l generalizing m₀ with
  | nil => cases hc
  | cons x rest ih =>
      rw [List.foldl_cons]
      rcases List.mem_cons.mp hc with h | h
      · subst h
        by_cases hmem : c ∈ rest
        · exact ih _ hmem
        · rw [mapGet_foldl_mapSet_not_mem f rest _ c hmem, mapGet_mapSet_self]
      · exact ih _ h

theorem setLastRenderToScreen_get? (l : List Pass) (i : Nat) :
    (setLastRenderToScreen l).get? i =
      if i = l.length - 1 then
        (l.get? i).map (fun p => { p with renderToScreen := true })
      else l.get? i := by
  induction l generalizing i with
  | nil => simp [setLastRenderToScreen]
  | cons p rest ih =>
      cases rest with
      | nil =>
          cases i with
          | zero => simp [setLastRenderToScreen]
          | succ j => simp [setLastRenderToScreen]
      | cons q rest₂ =>
          cases i with
          | zero =>
              have hz : (0 : Nat) ≠ (p :: q :: rest₂).length - 1 := by
                simp [List.length_cons]
              simp [setLastRenderToScreen, hz]
          | succ j =>
              have hs : (j + 1 = (p :: q :: rest₂).length - 1) =
                  (j = (q :: rest₂).length - 1) := by
                simp [List.length_cons]
              simp only [setLastRenderToScreen, List.get?_cons_succ, ih j, hs]

theorem setLastRenderToScreen_length (l : List Pass) :
    (setLastRenderToScreen l).length = l.length := by
  induction l with
  | nil => rfl
  | cons p rest ih =>
      cases rest with
      | nil => rfl
      | cons q rest₂ => simpa [setLastRenderToScreen] using ih

theorem setLastRenderToScreen_core (l : List Pass) :
    (setLastRenderToScreen l).map Pass.core = l.map Pass.core := by
  induction l with
  | nil => rfl
  | cons p rest ih =>
      cases rest with
      | nil => rfl
      | cons q rest₂ =>
          simpa [setLastRenderToScreen, Pass.core] using ih

theorem renderToScreen_false_of_get? (l : List Pass)
    (hall : ∀ p ∈ l, p.renderToScreen = false) (i : Nat) (p : Pass)
    (hp : l.get? i = some p) : p.renderToScreen = false :=
  hall p (List.get?_mem hp)

theorem mapGet_objAssign (source : List (String × String))
    (hnodup : (source.map Prod.fst).Nodup) (target : List (String × String))
    (k : String) :
    mapGet (objAssign target source) k = (mapGet source k).or (mapGet target k) := by
  induction source generalizing target with
  | nil => simp [objAssign, mapGet]
  | cons kv rest ih =>
      obtain ⟨k₀, v₀⟩ := kv
      simp only [List.map_cons, List.nodup_cons] at hnodup
      have step : objAssign target ((k₀, v₀) :: rest) =
          objAssign (mapSet target k₀ v₀) rest := rfl
      rw [step, ih hnodup.2]
      by_cases hk : k = k₀
      · subst hk
        have hnone : mapGet rest k = none :=
          mapGet_eq_none_of_not_mem rest k hnodup.1
        simp [hnone, mapGet, mapGet_mapSet_self]
      · have hne : ¬ k₀ = k := fun h => hk h.symm
        rw [mapGet_mapSet_ne _ _ _ _ hk]
        simp [mapGet, hne]

theorem replaceAll_spec (pairs : List (Nat × Option Nat)) (m : LayerMap)
    (hkeys : ∀ q ∈ pairs, mapHas m q.1 = true)
    (hnodup : (pairs.map Prod.fst).Nodup) :
    (replaceAll m pairs).2.2 = false ∧
    (∀ c, c ∉ pairs.map Prod.fst →
      mapGet (replaceAll m pairs).1 c = mapGet m c) ∧
    (∀ i r a, pairs.get? i = some (r, a) →
      ∃ mat, mapGet m r = some mat ∧
        mapGet (replaceAll m pairs).1 r =
          some { mat with map := canvasTexture a } ∧
        (replaceAll m pairs).2.1.get? i =
          some { mat.map with disposed := true }) := by
  induction pairs generalizing m with
  | nil =>
      refine ⟨rfl, fun c _ => rfl, fun i r a h => ?_⟩
      simp at h
  | cons hd rest ih =>
      obtain ⟨r₀, a₀⟩ := hd
      simp only [List.map_cons, List.nodup_cons] at hnodup
      have hr₀ : mapHas m r₀ = true := hkeys (r₀, a₀) (List.mem_cons_self _ _)
      obtain ⟨mat₀, hmat₀⟩ : ∃ mat₀, mapGet m r₀ = some mat₀ := by
        cases hg : mapGet m r₀ with
        | none => simp [mapHas, hg] at hr₀
        | some v => exact ⟨v, rfl⟩
      have hstep : replaceTexture m r₀ a₀ =
          some (mapUpdate m r₀ { mat₀ with map := canvasTexture a₀ },
                { mat₀.map with disposed := true }) := by
        simp [replaceTexture, hmat₀]
      set m₁ : LayerMap := mapUpdate m r₀ { mat₀ with map := canvasTexture a₀ }
        with hm₁
      have hkeys₁ : ∀ q ∈ rest, mapHas m₁ q.1 = true := by
        intro q hq
        have := hkeys q (List.mem_cons_of_mem _ hq)
        simpa [mapHas, hm₁, mapGet_mapUpdate_isSome] using this
      obtain ⟨ihthrew, ihothers, ihidx⟩ := ih m₁ hkeys₁ hnodup.2
      have hunfold : replaceAll m ((r₀, a₀) :: rest) =
          ((replaceAll m₁ rest).1,
           { mat₀.map with disposed := true } :: (replaceAll m₁ rest).2.1,
           (replaceAll m₁ rest).2.2) := by
        simp [replaceAll, hstep]
      refine ⟨by rw [hunfold]; exact ihthrew, ?_, ?_⟩
      · intro c hc
        simp only [List.map_cons, List.mem_cons] at hc
        push_neg at hc
        rw [hunfold]
        have h₁ : mapGet (replaceAll m₁ rest).1 c = mapGet m₁ c :=
          ihothers c hc.2
        rw [h₁, hm₁, mapGet_mapUpdate_ne _ _ _ _ hc.1]
      · intro i r a hget
        cases i with
        | zero =>
            have hpair : (r₀, a₀) = (r, a) := by
              have h0 : ((r₀, a₀) :: rest).get? 0 = some (r₀, a₀) := rfl
              rw [h0] at hget
              exact Option.some.inj hget
            have hr : r₀ = r := congrArg Prod.fst hpair
            have ha : a₀ = a := congrArg Prod.snd hpair
            subst hr
            subst ha
            refine ⟨mat₀, hmat₀, ?_, ?_⟩
            · rw [hunfold]
              have hnotin : r₀ ∉ rest.map Prod.fst := hnodup.1
              rw [ihothers r₀ hnotin, hm₁,
                mapGet_mapUpdate_self _ _ _ (by simpa [mapHas] using hr₀)]
            · rw [hunfold]
              simp
        | succ j =>
            simp only [List.get?_cons_succ] at hget
            obtain ⟨mat, hmat, hres, htex⟩ := ihidx j r a hget
            have hrmem : r ∈ rest.map Prod.fst := by
              have : (r, a) ∈ rest := List.get?_mem hget
              exact List.mem_map.mpr ⟨(r, a), this, rfl⟩
            have hrne : r ≠ r₀ := fun h => hnodup.1 (h ▸ hrmem)
            have hm : mapGet m r = some mat := by
              rw [hm₁, mapGet_mapUpdate_ne _ _ _ _ hrne] at hmat
              exact hmat
            refine ⟨mat, hm, ?_, ?_⟩
            · rw [hunfold]
              exact hres
            · rw [hunfold]
              simpa using htex

/-! ## Concrete inputs used by witnesses -/

/-- A concrete host environment: container, xterm screen, four render
layers and an 800x600 bounding rect. -/
def witnessEnv : TermEnv :=
  { containerId := 1, xTermScreenId := 2, renderLayers := [10, 11, 12, 13]
    boundWidth := 800, boundHeight := 600 }

/-- An initialized component on an active tab with a running loop. -/
def activeComp : Comp :=
  { initialComp true false with isInit := true, loopRunning := true }

/-- An initialized component on an inactive tab with a stopped loop. -/
def inactiveComp : Comp :=
  { activeComp with propsIsTermActive := false, loopRunning := false }

/-! ## Claim theorems -/

/-- C2: the pass factory (the default export of `passes.js`), when no
exception is thrown during construction, returns a list of exactly two
passes: first the CRT/color-separation/flicker effect pass (a
`CustomEffectPass`, a subclass of `EffectPass`, wrapping the `crtEffect`
`Effect`) and second the screen-curvature effect pass (an `EffectPass`
wrapping the `curvedFragmentEffect` `Effect`). -/
theorem createPasses_two_passes :
    (createPasses none).1 = some [crtPass, curvedPass] ∧
    (createPasses none).2 = [] ∧
    crtPass.cls = PassClass.customEffectPass ∧
    crtPass.effects = [crtEffect] ∧
    crtEffect.name = "crtEffect" ∧
    curvedPass.cls = PassClass.effectPass ∧
    curvedPass.effects = [curvedFragmentEffect] ∧
    curvedFragmentEffect.name = "curvedFragmentEffect" ∧
    isEffectPassInstance crtPass.cls = true ∧
    isEffectPassInstance curvedPass.cls = true :=
  ⟨rfl, rfl, rfl, rfl, rfl, rfl, rfl, rfl, rfl, rfl⟩

/-- C1: for every successful initialization (`_init` run with a non-empty
pass list from `createPasses`), the composer's pass chain consists of a
base `RenderPass` first, followed by the created passes in order (same
class, effects and uniforms), and exactly the last pass of the chain has
`renderToScreen = true` (the library constructs every pass with the flag
off, which is the `hrts` hypothesis). -/
theorem passChain_base_then_passes_last_to_screen (env : TermEnv) (s : Comp)
    (created : List Pass) (hne : created ≠ [])
    (hrts : ∀ p ∈ created, p.renderToScreen = false) :
    (initFn env s (some created)).passes = initPassChain created ∧
    ((initFn env s (some created)).composer).map Composer.passes =
      some (initPassChain created) ∧
    (initPassChain created).length = created.length + 1 ∧
    (initPassChain created).get? 0 = some renderPassNew ∧
    (initPassChain created).tail.map Pass.core = created.map Pass.core ∧
    (∀ i, i < (initPassChain created).length →
      ∃ p, (initPassChain created).get? i = some p ∧
        (p.renderToScreen = true ↔ i = created.length)) := by
  obtain ⟨q, rest, rfl⟩ := List.exists_cons_of_ne_nil hne
  have hchain : initPassChain (q :: rest) =
      renderPassNew :: setLastRenderToScreen (q :: rest) := rfl
  have hlen0 : ¬ ((q :: rest).length = 0) := by simp
  have hlenc : (q :: rest).length = rest.length + 1 := rfl
  refine ⟨?_, ?_, ?_, ?_, ?_, ?_⟩
  · simp [initFn, hlen0]
  · simp [initFn, hlen0]
  · rw [hchain]
    simp [setLastRenderToScreen_length]
  · rw [hchain]
    rfl
  · rw [hchain]
    simpa using setLastRenderToScreen_core (q :: rest)
  · intro i hi
    rw [hchain] at hi
    rw [hchain]
    cases i with
    | zero =>
        refine ⟨renderPassNew, rfl, ?_⟩
        constructor
        · intro hcontra
          simp [renderPassNew] at hcontra
        · intro hcontra
          rw [hlenc] at hcontra
          exact absurd hcontra (by omega)
    | succ j =>
        have hj : j < (q :: rest).length := by
          simp only [List.length_cons, setLastRenderToScreen_length] at hi
          omega
        obtain ⟨p₀, hp₀⟩ : ∃ p₀, (q :: rest).get? j = some p₀ :=
          ⟨(q :: rest).get ⟨j, hj⟩, List.get?_eq_some.mpr ⟨hj, rfl⟩⟩
        rw [List.get?_cons_succ, setLastRenderToScreen_get? (q :: rest) j]
        by_cases hjl : j = (q :: rest).length - 1
        · rw [if_pos hjl, hp₀]
          refine ⟨_, rfl, ?_⟩
          rw [hlenc] at hjl ⊢
          constructor
          · intro _
            omega
          · intro _
            rfl
        · rw [if_neg hjl, hp₀]
          refine ⟨p₀, rfl, ?_⟩
          have hrtsp : p₀.renderToScreen = false :=
            hrts p₀ (List.get?_mem hp₀)
          have hjr : ¬ j = rest.length := by simpa [hlenc] using hjl
          rw [hrtsp, hlenc]
          refine ⟨fun hcontra => absurd hcontra (by simp), fun hcontra => ?_⟩
          exact absurd (by omega : j = rest.length) hjr

/-- Witness for C1: the chain built from the two concrete passes of
`createPasses` has the render pass first and length three. -/
theorem passChain_witness :
    (initFn witnessEnv (initialComp true false)
        (some [crtPass, curvedPass])).passes =
      initPassChain [crtPass, curvedPass] ∧
    (initPassChain [crtPass, curvedPass]).length = 3 ∧
    (initPassChain [crtPass, curvedPass]).get? 0 = some renderPassNew := by
  have h := passChain_base_then_passes_last_to_screen witnessEnv
    (initialComp true false) [crtPass, curvedPass] (by simp) (by decide)
  exact ⟨h.1, h.2.2.1, h.2.2.2.1⟩

/-- C3: `_setupScene` creates exactly one textured plane mesh per
render-layer canvas found under the xterm screen, adds each to the scene
(in order), and records a canvas-to-material entry in `_xTermLayerMap`;
after a successful `_init` the number of scene meshes equals the number of
render-layer canvases. -/
theorem setupScene_one_mesh_per_canvas (env : TermEnv) (s : Comp)
    (created : List Pass) (hne : created ≠ []) :
    ((initFn env s (some created)).scene).map (fun sc => sc.children.length) =
      some env.renderLayers.length ∧
    (initFn env s (some created)).scene =
      some { children :=
        env.renderLayers.map (meshFor env.boundWidth env.boundHeight) } ∧
    ∀ c ∈ env.renderLayers,
      mapGet (initFn env s (some created)).xTermLayerMap c =
        some (materialFor c) := by
  have hlen0 : ¬ (created.length = 0) := by
    simpa [List.length_eq_zero] using hne
  refine ⟨?_, ?_, ?_⟩
  · simp [initFn, hlen0, setupScene]
  · simp [initFn, hlen0, setupScene]
  · intro c hc
    have hmap : (initFn env s (some created)).xTermLayerMap =
        env.renderLayers.foldl (fun m x => mapSet m x (materialFor x))
          s.xTermLayerMap := by
      simp [initFn, hlen0, setupScene]
    rw [hmap]
    exact mapGet_foldl_mapSet_mem materialFor env.renderLayers
      s.xTermLayerMap c hc

/-- Witness for C3: four render layers yield four meshes, and layer `11`
is mapped to its material. -/
theorem setupScene_witness :
    ((initFn witnessEnv (initialComp true false)
        (some [crtPass, curvedPass])).scene).map (fun sc => sc.children.length) =
      some 4 ∧
    mapGet (initFn witnessEnv (initialComp true false)
        (some [crtPass, curvedPass])).xTermLayerMap 11 =
      some (materialFor 11) := by
  have h := setupScene_one_mesh_per_canvas witnessEnv (initialComp true false)
    [crtPass, curvedPass] (by simp)
  exact ⟨h.1, h.2.2 11 (by decide)⟩

/-- C4: after initialization, an active-to-inactive props transition
cancels the animation-frame loop, an inactive-to-active transition starts
it, and any other transition leaves the loop's running state unchanged;
before initialization props updates never start or cancel the loop. -/
theorem props_update_controls_loop (s : Comp) (b : Bool) :
    (s.isInit = true →
      ((s.propsIsTermActive = true ∧ b = false) →
        (componentWillReceiveProps s b).loopRunning = false) ∧
      ((s.propsIsTermActive = false ∧ b = true) →
        (componentWillReceiveProps s b).loopRunning = true) ∧
      (s.propsIsTermActive = b →
        (componentWillReceiveProps s b).loopRunning = s.loopRunning)) ∧
    (s.isInit = false →
      (componentWillReceiveProps s b).loopRunning = s.loopRunning) := by
  cases hinit : s.isInit <;> cases hprops : s.propsIsTermActive <;> cases b <;>
    simp [componentWillReceiveProps, cancelAnimationLoop, startAnimationLoop,
      hinit, hprops]

/-- Witness for C4: on an initialized active component, receiving
inactive props stops the loop; receiving active props on an inactive one
starts it. -/
theorem props_update_witness :
    (componentWillReceiveProps activeComp false).loopRunning = false ∧
    (componentWillReceiveProps inactiveComp true).loopRunning = true := by
  refine ⟨?_, ?_⟩
  · exact ((props_update_controls_loop activeComp false).1 rfl).1 ⟨rfl, rfl⟩
  · exact ((props_update_controls_loop inactiveComp true).1 rfl).2.1 ⟨rfl, rfl⟩

/-- C5: every exception raised during shader/effect construction is caught
by `createPasses` and logged with `console.error`; `_init` then sees an
`undefined` pass list and returns at once, leaving the whole component
state unchanged (in particular, starting from the constructor state,
`_isInit` stays false and no scene, renderer, observer or DOM canvas is
created); nothing retries the initialization. -/
theorem init_atomic_on_exception (msg : String) (env : TermEnv) (s : Comp)
    (a d : Bool) :
    (createPasses (some msg)).1 = none ∧
    (createPasses (some msg)).2 = [ConsoleEntry.error msg] ∧
    initFn env s (createPasses (some msg)).1 = s ∧
    initFn env (initialComp a d) (createPasses (some msg)).1 = initialComp a d ∧
    (initialComp a d).isInit = false ∧
    (initialComp a d).scene = none ∧
    (initialComp a d).rendererCreated = false ∧
    (initialComp a d).layerObserver = false ∧
    (initialComp a d).canvasCreated = false :=
  ⟨rfl, rfl, rfl, rfl, rfl, rfl, rfl, rfl, rfl⟩

/-- C9: the `separation` uniform of the CRT effect starts at `0.5` and,
for every sequence of `Math.random()` draws, stays within the closed
interval `[0, 1]` across every invocation of `CustomEffectPass.render`,
because each render step clamps the perturbed value with the
`Math.min(1, Math.max(0, _))` guard before rendering. -/
theorem separation_uniform_in_unit_interval (rs : List ℚ) :
    mapGet crtEffect.uniforms "separation" = some crtSeparationInit ∧
    0 ≤ sepValue rs ∧ sepValue rs ≤ 1 :=
  ⟨rfl, sepFold_bounds rs crtSeparationInit
    (by norm_num [crtSeparationInit]) (by norm_num [crtSeparationInit])⟩

/-- C10: `_onDecorated` is idempotent with respect to initialization:
with a null term it forwards the call to the chained `onDecorated` prop
and leaves all component state unchanged; called again while `_isInit` is
true it likewise only forwards the call and changes nothing. -/
theorem onDecorated_idempotent (env : TermEnv) (exc : Option String)
    (s : Comp) (t : Nat) :
    (onDecorated env exc s none).1 = s ∧
    (onDecorated env exc s none).2 =
      (if s.hasOnDecoratedProp then [none] else []) ∧
    (s.isInit = true →
      (onDecorated env exc s (some t)).1 = s ∧
      (onDecorated env exc s (some t)).2 =
        (if s.hasOnDecoratedProp then [some t] else [])) := by
  refine ⟨rfl, rfl, fun hinit => ⟨?_, ?_⟩⟩ <;> simp [onDecorated, hinit]

/-- Witness for C10: a second decorated callback on an initialized
component leaves the state intact. -/
theorem onDecorated_witness :
    (onDecorated witnessEnv none activeComp (some 5)).1 = activeComp :=
  ((onDecorated_idempotent witnessEnv none activeComp 5).2.2 rfl).1

/-- A shader pass whose fullscreen material declares the `aspect` and
`resolution` uniforms, used to exercise the resize handler. -/
def probeShaderPass : Pass :=
  { cls := PassClass.renderPass, effects := []
    uniforms := [("aspect", UVal.flt 0), ("resolution", UVal.vec2 0 0)]
    renderToScreen := false }

/-- A composer with a stale size, used to exercise the resize handler. -/
def probeComposer : Composer :=
  { width := 100, height := 50, passes := [] }

theorem setUniform_get_self (p : Pass) (k : String) (v : UVal)
    (h : mapHas p.uniforms k = true) :
    mapGet (setUniform p k v).uniforms k = some v := by
  unfold setUniform
  rw [if_pos h]
  exact mapGet_mapUpdate_self _ _ _ (by simpa [mapHas] using h)

theorem setUniform_get_ne (p : Pass) (k k₂ : String) (v : UVal)
    (hne : k₂ ≠ k) :
    mapGet (setUniform p k v).uniforms k₂ = mapGet p.uniforms k₂ := by
  unfold setUniform
  by_cases h : mapHas p.uniforms k = true
  · rw [if_pos h]
    exact mapGet_mapUpdate_ne _ _ _ _ hne
  · rw [if_neg h]

theorem setUniform_has (p : Pass) (k k₂ : String) (v : UVal) :
    mapHas (setUniform p k v).uniforms k₂ = mapHas p.uniforms k₂ := by
  unfold setUniform
  by_cases h : mapHas p.uniforms k = true
  · rw [if_pos h]
    simp [mapHas, mapGet_mapUpdate_isSome]
  · rw [if_neg h]

/-- The layer map of a two-layer scene, used to exercise the canvas
replacement handler. -/
def witnessLayerMap : LayerMap :=
  [(10, materialFor 10), (11, materialFor 11)]

/-- A mutation record replacing canvas `10` by canvas `20`. -/
def witnessRecord : MutationRecord :=
  { removedNodes := [10], addedNodes := [20] }

/-- C7: on every host resize event after initialization, the composer's
size is set to the terminal element's bounding width and height, and on
every pass of `_shaderPasses` whose fullscreen material declares them, the
`aspect` uniform is set to `width / height` and the `resolution` uniform
to `Vector2(width, height)`. -/
theorem resize_sets_size_and_uniforms (composer : Composer)
    (shaderPassList : List Pass) (w h : ℚ) :
    (onResize composer shaderPassList w h).1.width = w ∧
    (onResize composer shaderPassList w h).1.height = h ∧
    (onResize composer shaderPassList w h).1.passes = composer.passes ∧
    (onResize composer shaderPassList w h).2.length = shaderPassList.length ∧
    ∀ i p, shaderPassList.get? i = some p →
      ∃ p₂, (onResize composer shaderPassList w h).2.get? i = some p₂ ∧
        (mapHas p.uniforms "aspect" = true →
          mapGet p₂.uniforms "aspect" = some (UVal.flt (w / h))) ∧
        (mapHas p.uniforms "resolution" = true →
          mapGet p₂.uniforms "resolution" = some (UVal.vec2 w h)) := by
  refine ⟨rfl, rfl, rfl, ?_, ?_⟩
  · simp [onResize, setUniformsFn]
  · intro i p hp
    have hres : (onResize composer shaderPassList w h).2 =
        (shaderPassList.map
          (fun p => setUniform p "aspect" (UVal.flt (w / h)))).map
          (fun p => setUniform p "resolution" (UVal.vec2 w h)) := rfl
    refine ⟨setUniform (setUniform p "aspect" (UVal.flt (w / h)))
      "resolution" (UVal.vec2 w h), ?_, ?_, ?_⟩
    · rw [hres, List.get?_map, List.get?_map, hp]
      rfl
    · intro ha
      rw [setUniform_get_ne _ "resolution" "aspect" _ (by decide)]
      exact setUniform_get_self p "aspect" _ ha
    · intro hr
      apply setUniform_get_self
      rw [setUniform_has]
      exact hr

/-- Witness for C7: resizing to 800x600 updates the composer size and both
declared uniforms of a probe shader pass. -/
theorem resize_witness :
    (onResize probeComposer [probeShaderPass] 800 600).1.width = 800 ∧
    ∃ p₂, (onResize probeComposer [probeShaderPass] 800 600).2.get? 0 =
        some p₂ ∧
      mapGet p₂.uniforms "aspect" = some (UVal.flt (800 / 600)) ∧
      mapGet p₂.uniforms "resolution" = some (UVal.vec2 800 600) := by
  obtain ⟨p₂, hg, ha, hr⟩ :=
    (resize_sets_size_and_uniforms probeComposer
      [probeShaderPass] 800 600).2.2.2.2 0 probeShaderPass rfl
  exact ⟨(resize_sets_size_and_uniforms probeComposer
    [probeShaderPass] 800 600).1, p₂, hg, ha rfl, hr rfl⟩

/-- C6: for an observed child-list mutation of the xterm screen (whose
removed canvases are all mapped layers, pairwise distinct), the handler
pairs each removed canvas with the added canvas at the same index,
disposes the old texture of the material previously mapped to the removed
canvas, and sets that material's `map` to a new `CanvasTexture` of the
added canvas; the materials of all other layers are unchanged, and no
`TypeError` escapes. -/
theorem canvas_replacement_updates_map (m : LayerMap) (e : MutationRecord)
    (hkeys : ∀ c ∈ e.removedNodes, mapHas m c = true)
    (hnodup : e.removedNodes.Nodup) :
    (onCanvasReplacement m [e]).2.2 = false ∧
    (∀ c, c ∉ e.removedNodes →
      mapGet (onCanvasReplacement m [e]).1 c = mapGet m c) ∧
    ∀ i c, e.removedNodes.get? i = some c →
      ∃ mat, mapGet m c = some mat ∧
        mapGet (onCanvasReplacement m [e]).1 c =
          some { mat with map := canvasTexture e.addedNodes[i]? } ∧
        (onCanvasReplacement m [e]).2.1.get? i =
          some { mat.map with disposed := true } := by
  have hkeysEq : (pairedNodes e).map Prod.fst = e.removedNodes := by
    simp only [pairedNodes, List.map_map]
    have : (Prod.fst ∘ fun p : Nat × Nat => (p.2, e.addedNodes[p.1]?)) =
        Prod.snd := by
      funext p
      rfl
    rw [this]
    exact List.enum_map_snd _
  have hget : ∀ i, (pairedNodes e).get? i =
      (e.removedNodes.get? i).map (fun c => (c, e.addedNodes[i]?)) := by
    intro i
    simp only [pairedNodes, List.get?_map, List.get?_enum]
    cases e.removedNodes.get? i <;> rfl
  have hrun : onCanvasReplacement m [e] = replaceAll m (pairedNodes e) := rfl
  obtain ⟨h₁, h₂, h₃⟩ := replaceAll_spec (pairedNodes e) m
    (by
      intro q hq
      apply hkeys
      rw [← hkeysEq]
      exact List.mem_map.mpr ⟨q, hq, rfl⟩)
    (by rw [hkeysEq]; exact hnodup)
  refine ⟨by rw [hrun]; exact h₁, ?_, ?_⟩
  · intro c hc
    rw [hrun]
    exact h₂ c (by rw [hkeysEq]; exact hc)
  · intro i c hc
    have hpair : (pairedNodes e).get? i = some (c, e.addedNodes[i]?) := by
      rw [hget i, hc]
      rfl
    obtain ⟨mat, hmat, hres, htex⟩ := h₃ i c e.addedNodes[i]? hpair
    exact ⟨mat, hmat, by rw [hrun]; exact hres, by rw [hrun]; exact htex⟩

/-- Witness for C6: replacing canvas `10` by canvas `20` rewires layer
`10`'s material to a texture of `20`, disposes the old texture, and leaves
layer `11` untouched. -/
theorem canvas_replacement_witness :
    (onCanvasReplacement witnessLayerMap [witnessRecord]).2.2 = false ∧
    mapGet (onCanvasReplacement witnessLayerMap [witnessRecord]).1 11 =
      mapGet witnessLayerMap 11 ∧
    ∃ mat, mapGet witnessLayerMap 10 = some mat ∧
      mapGet (onCanvasReplacement witnessLayerMap [witnessRecord]).1 10 =
        some { mat with map := canvasTexture witnessRecord.addedNodes[0]? } ∧
      (onCanvasReplacement witnessLayerMap [witnessRecord]).2.1.get? 0 =
        some { mat.map with disposed := true } := by
  obtain ⟨h1, h2, h3⟩ := canvas_replacement_updates_map witnessLayerMap
    witnessRecord (by decide) (by decide)
  exact ⟨h1, h2 11 (by decide), h3 0 10 rfl⟩

/-- C8: the theme's `decorateConfig` returns a config whose lookups agree
with the input on every field other than the four color fields, which are
set to the theme's static colors; the result is assembled with
`Object.assign` into a fresh empty object, so the input config is not
mutated (the embedding is pure and the input list is returned
unchanged by construction). -/
theorem decorateConfig_overrides (config : List (String × String))
    (hnodup : (config.map Prod.fst).Nodup) :
    mapGet (decorateConfig config) "foregroundColor" = some "#28FC91" ∧
    mapGet (decorateConfig config) "backgroundColor" = some "#0F2218" ∧
    mapGet (decorateConfig config) "borderColor" = some "#28FC91" ∧
    mapGet (decorateConfig config) "cursorColor" = some "#40FFFF" ∧
    ∀ k, k ≠ "foregroundColor" → k ≠ "backgroundColor" → k ≠ "borderColor" →
      k ≠ "cursorColor" → mapGet (decorateConfig config) k = mapGet config k := by
  have hthemeNodup : (themeColors.map Prod.fst).Nodup := by decide
  have hmain : ∀ k, mapGet (decorateConfig config) k =
      (mapGet themeColors k).or (mapGet config k) := by
    intro k
    have hd : decorateConfig config =
        objAssign (objAssign [] config) themeColors := rfl
    rw [hd, mapGet_objAssign themeColors hthemeNodup _ k,
      mapGet_objAssign config hnodup [] k]
    cases mapGet themeColors k <;> cases mapGet config k <;> rfl
  refine ⟨by rw [hmain]; rfl, by rw [hmain]; rfl, by rw [hmain]; rfl,
    by rw [hmain]; rfl, ?_⟩
  intro k h1 h2 h3 h4
  rw [hmain]
  have hnone : mapGet themeColors k = none := by
    simp [themeColors, mapGet, Ne.symm h1, Ne.symm h2, Ne.symm h3, Ne.symm h4]
  rw [hnone]
  cases mapGet config k <;> rfl

/-- Witness for C8: on a config with a `fontSize` field and a stale
foreground color, the decorated config overrides the color and keeps
`fontSize`. -/
theorem decorateConfig_witness :
    mapGet (decorateConfig [("fontSize", "12"), ("foregroundColor", "red")])
      "foregroundColor" = some "#28FC91" ∧
    mapGet (decorateConfig [("fontSize", "12"), ("foregroundColor", "red")])
      "fontSize" = some "12" := by
  obtain ⟨h1, _, _, _, h5⟩ := decorateConfig_overrides
    [("fontSize", "12"), ("foregroundColor", "red")] (by decide)
  refine ⟨h1, ?_⟩
  rw [h5 "fontSize" (by decide) (by decide) (by decide) (by decide)]
  rfl

end Hyperatompunk
